import Mathlib

/-!
Verification of the Sweeper subsystem of the bank-skills repository
(src/skills/bank-skill/bankskills/sweeper.py) against its specification.

Strings are embedded as `List Char` (Python `str` over the ASCII range the
program manipulates).  File contents are embedded as lists of lines.  Chain
interaction (gas estimation, transaction submission, receipts, balance reads)
is embedded as an explicit environment value describing the chain's response
to each probe, and the swap functions become pure functions of that
environment that additionally report the ledger lines they append and the
transactions they submit.  Python `float` amounts are embedded as exact
rationals; the rendering `str(<float>)` is environment-supplied except where
a claim pins it down, in which case only the exactly-representable integral
case is modelled (see `amount_out_human_str`).
-/

set_option linter.unusedVariables false

/-- Coerce a Lean string literal to the `List Char` representation used for
Python strings throughout this development. -/
def str (s : String) : List Char :=
  s.data

/-- The six ASCII characters Python's `str.strip()` removes (`\t\n\v\f\r` and
space); the program only ever strips ASCII data. -/
def pyWhitespace (c : Char) : Bool :=
  c == ' ' || c == '\t' || c == '\n' || c == '\r' || c == Char.ofNat 11 || c == Char.ofNat 12

/-- Python `str.strip()`: drop leading and trailing whitespace. -/
def pyStrip (l : List Char) : List Char :=
  ((l.dropWhile pyWhitespace).reverse.dropWhile pyWhitespace).reverse

/-- Python `str.lower()` on the ASCII range. -/
def pyLowerChar (c : Char) : Char :=
  if 'A' ≤ c && c ≤ 'Z' then Char.ofNat (c.toNat + 32) else c

/-- Python `str.lower()` on the ASCII range. -/
def pyLower (l : List Char) : List Char :=
  l.map pyLowerChar

/-- Python `a.replace("0x", "")` (sweeper.py line 99), specialised to the
constant pattern the source uses: a single left-to-right scan removing each
non-overlapping occurrence of `0x`. -/
def remove0x : List Char → List Char
  | [] => []
  | [c] => [c]
  | c1 :: c2 :: rest =>
    if c1 = '0' ∧ c2 = 'x' then remove0x rest
    else c1 :: remove0x (c2 :: rest)

/-- Python `str.zfill(w)`: left-pad with `'0'` to width `w`, keeping a leading
sign in front of the padding. -/
def pyZfill (w : Nat) (l : List Char) : List Char :=
  if w ≤ l.length then l
  else
    match l with
    | c :: rest =>
      if c = '+' ∨ c = '-' then c :: (List.replicate (w - l.length) '0' ++ rest)
      else List.replicate (w - l.length) '0' ++ (c :: rest)
    | [] => List.replicate w '0'

/-- One hexadecimal digit, as in the source's regexes `[a-fA-F0-9]`. -/
def isHexDigit (c : Char) : Bool :=
  ('0' ≤ c && c ≤ '9') || ('a' ≤ c && c ≤ 'f') || ('A' ≤ c && c ≤ 'F')

/-- Embeds `_validate_address` (sweeper.py lines 87-89): `^0x[a-fA-F0-9]{40}$`. -/
def validate_address (addr : List Char) : Bool :=
  match addr with
  | c1 :: c2 :: rest => c1 == '0' && c2 == 'x' && rest.length == 40 && rest.all isHexDigit
  | _ => false

/-- Embeds `_is_native_eth` (sweeper.py lines 92-100). -/
def is_native_eth (addr : List Char) : Bool :=
  if addr = [] then false
  else
    let a := pyLower (pyStrip addr)
    if a = str "eth" ∨ a = str "native" then true
    else
      let a2 := pyZfill 40 (remove0x a)
      a2.length == 40 && a2 == List.replicate 40 '0'

/-- One decimal digit, hand-compiled from the regex class `\d` (ASCII model). -/
def isDigit (c : Char) : Bool :=
  '0' ≤ c && c ≤ '9'

/-- The timestamp part `\d{4}-\d{2}-\d{2} \d{2}:\d{2}:\d{2}` of the ledger-line
regex (sweeper.py lines 161-164), hand-compiled position by position. -/
def tsShape (l : List Char) : Bool :=
  l.length == 19 &&
  (List.range 19).all (fun i =>
    let c := l.getD i ' '
    if i = 4 ∨ i = 7 then c == '-'
    else if i = 10 then c == ' '
    else if i = 13 ∨ i = 16 then c == ':'
    else isDigit c)

/-- One parsed ledger line, as built by `get_sweep_config`
(sweeper.py lines 166-173). -/
structure LedgerEntry where
  timestamp : List Char
  spent : List Char
  bought : List Char
  tx_hash : List Char
deriving DecidableEq, Repr

/-- The regex fragment `([^|]+) \| <kw>` (with `kw` carrying the leading pipe):
the group is forced to end one character before the first pipe, that character
must be the literal space, and the pipe must be followed by `kw`'s text.
Returns the group and the remainder after `kw`. -/
def pipeGroup (l : List Char) (kw : List Char) : Option (List Char × List Char) :=
  let run := l.takeWhile (fun c => c != '|')
  let rest := l.drop run.length
  if run.getLast? = some ' ' ∧ run.dropLast ≠ [] ∧ kw.isPrefixOf rest then
    some (run.dropLast, rest.drop kw.length)
  else none

/-- The ledger-line regex of `get_sweep_config` (sweeper.py lines 161-164),
`^(\d{4}-\d{2}-\d{2} \d{2}:\d{2}:\d{2}) \| spent: ([^|]+) \| bought: ([^|]+)
\| tx: (0x[a-fA-F0-9]+)`, hand-compiled: anchored at the start, trailing
characters after the final greedy hex run are permitted (`re.match` has no end
anchor), and the spent/bought groups are stripped as at lines 169-170. -/
def parseLedgerLine (l : List Char) : Option LedgerEntry :=
  if tsShape (l.take 19) = true then
    if (str " | spent: ").isPrefixOf (l.drop 19) then
      match pipeGroup ((l.drop 19).drop 10) (str "| bought: ") with
      | some (g2, r2) =>
        match pipeGroup r2 (str "| tx: ") with
        | some (g3, r3) =>
          if (str "0x").isPrefixOf r3 then
            if (r3.drop 2).takeWhile isHexDigit ≠ [] then
              some ⟨l.take 19, pyStrip g2, pyStrip g3,
                    '0' :: 'x' :: (r3.drop 2).takeWhile isHexDigit⟩
            else none
          else none
        | none => none
      | none => none
    else none
  else none

/-- State carried by `get_sweep_config`'s parsing loop
(sweeper.py lines 152-154). -/
structure SweepState where
  target : Option (List Char)
  network : List Char
  recent_sweeps : List LedgerEntry
deriving DecidableEq, Repr

/-- One iteration of `get_sweep_config`'s line loop (sweeper.py lines 156-181):
strip, skip blank and `#` lines, try the ledger-line regex, otherwise treat a
line containing `=` as a `key=value` pair (`split("=", 1)`, both sides
stripped), reacting only to the keys `target` and `network`. -/
def processLine (st : SweepState) (line : List Char) : SweepState :=
  let l := pyStrip line
  if l = [] then st
  else if l.head? = some '#' then st
  else
    match parseLedgerLine l with
    | some e => { st with recent_sweeps := st.recent_sweeps ++ [e] }
    | none =>
      if l.contains '=' then
        let k := pyStrip (l.takeWhile (fun c => c != '='))
        let v := pyStrip ((l.dropWhile (fun c => c != '=')).drop 1)
        if k = str "target" then { st with target := some v }
        else if k = str "network" then { st with network := v }
        else st
      else st

/-- Python `l[-10:]` (sweeper.py line 202). -/
def pyTail10 {α : Type} (l : List α) : List α :=
  l.drop (l.length - 10)

/-- Embeds `get_sweep_config` (sweeper.py lines 135-203) restricted to its pure
file-parsing behaviour: the file content is given as its list of lines
(`content.splitlines()`), and the best-effort symbol re-resolution and
checksumming of the target (chain calls, lines 183-196) are outside the
embedding. -/
def get_sweep_config (lines : List (List Char)) : SweepState :=
  let st := lines.foldl processLine ⟨none, str "base", []⟩
  { st with recent_sweeps := pyTail10 st.recent_sweeps }

/-- The ledger entry contributed by a single file line: the facet of
`processLine` that feeds `recent_sweeps`. -/
def lineEntry (line : List Char) : Option LedgerEntry :=
  let l := pyStrip line
  if l = [] then none
  else if l.head? = some '#' then none
  else parseLedgerLine l

/-- The ledger line written after a successful swap (sweeper.py lines 306 and
405): `f"{ts} | spent: {amount_eth} ETH | bought: {amount_out_human} {symbol}
| tx: {tx_hash}"`, with the two float renderings and the symbol passed in as
strings. -/
def formatLogLine (ts amount_eth_s amount_out_s sym tx : List Char) : List Char :=
  ts ++ str " | spent: " ++ amount_eth_s ++ str " ETH | bought: " ++
    amount_out_s ++ [ ' ' ] ++ sym ++ str " | tx: " ++ tx

/-- The exposed operations' effect on the sweep config file, for the retention
claim: `set_target_token` writes the whole file fresh in `"w"` mode
(sweeper.py lines 127-130), a successful `buy_token` appends one ledger line
in `"a"` mode (lines 304-308 and 403-407), and the remaining exposed
operations never write the file. -/
inductive SweepOp where
  | set_target_token : List Char → SweepOp
  | buy_token_append : List Char → SweepOp
  | get_sweep_config : SweepOp
  | get_token_balance : SweepOp
  | send_token : SweepOp
deriving DecidableEq, Repr

/-- File effect of one exposed operation; the file is its list of lines. -/
def applyOp (file : List (List Char)) : SweepOp → List (List Char)
  | SweepOp.set_target_token addr => [ str "target=" ++ addr, str "network=base" ]
  | SweepOp.buy_token_append line => file ++ [ line ]
  | SweepOp.get_sweep_config => file
  | SweepOp.get_token_balance => file
  | SweepOp.send_token => file

/-- File effect of a sequence of exposed operations. -/
def applyOps (file : List (List Char)) (ops : List SweepOp) : List (List Char) :=
  ops.foldl applyOp file

/-- Discriminator for the one rewriting operation. -/
def isSetTarget : SweepOp → Bool
  | SweepOp.set_target_token _ => true
  | _ => false

/-- The chain's response to probing one V3 fee tier inside `_try_v3_swap`
(sweeper.py lines 337-418): gas estimation raises (no transaction submitted),
or the submitted transaction's receipt has non-success status, or the receipt
is successful and the target-token balance afterwards is reported. -/
inductive TierOutcome where
  | estimateFail : TierOutcome
  | receiptFail : List Char → TierOutcome
  | success : List Char → Int → TierOutcome
deriving DecidableEq, Repr

/-- The chain's response to the single V4 fallback submission in
`_buy_token_v4_clawbank` (sweeper.py lines 292-300). -/
inductive V4Outcome where
  | receiptFail : List Char → V4Outcome
  | success : List Char → Int → V4Outcome
deriving DecidableEq, Repr

/-- Environment for one `buy_token` call: the chain's responses plus the token
metadata read before routing (decimals, symbol, balance-before, sweeper.py
lines 469-471), the wall-clock timestamp string produced by
`datetime.now().strftime('%Y-%m-%d %H:%M:%S')`, and the Python `str()`
rendering of float amounts (external formatting, kept abstract here). -/
structure ChainEnv where
  tier : Nat → TierOutcome
  v4 : V4Outcome
  decimals : Nat
  symbol : List Char
  balance_before : Int
  now : List Char
  fmt : ℚ → List Char

/-- The success payload of a swap (sweeper.py lines 310-315 and 409-414). -/
structure SwapResult where
  tx_hash : List Char
  amount_in : List Char
  amount_out : List Char
  status : List Char
deriving DecidableEq, Repr

/-- Constant `GAS_RESERVE_ETH = 0.001` (sweeper.py line 19), embedded exactly. -/
def GAS_RESERVE_ETH : ℚ :=
  1 / 1000

/-- Constant `fee_tiers = [500, 3000, 10000]` — 0.05 percent, 0.3 percent, 1 percent
(sweeper.py line 332). -/
def fee_tiers : List Nat :=
  [ 500, 3000, 10000 ]

/-- Constant `CLAWBANK_ADDRESS` (sweeper.py line 479). -/
def CLAWBANK_ADDRESS : List Char :=
  str "0x16332535E2c27da578bC2e82bEb09Ce9d3C8EB07"

/-- The distinct `SweeperError`s `buy_token` can raise, by the point of
detection (sweeper.py lines 444-457, 484-488, 297-298); the balance error
carries the held balance and the requested amount it reports. -/
inductive SweeperErr where
  | noTarget : SweeperErr
  | nonPositiveAmount : SweeperErr
  | insufficientBalance : ℚ → ℚ → SweeperErr
  | noLiquidity : List Char → SweeperErr
  | txFailed : List Char → SweeperErr
deriving DecidableEq, Repr

/-- The exact error texts of the source, with float renderings supplied by
`fmt` (sweeper.py lines 445, 453, 456-458, 484-488, 298). -/
def errMsg (fmt : ℚ → List Char) : SweeperErr → List Char
  | SweeperErr.noTarget => str "No target token set. Call set_target_token first."
  | SweeperErr.nonPositiveAmount => str "Amount must be greater than zero."
  | SweeperErr.insufficientBalance bal amt =>
      str "Insufficient balance. Have " ++ fmt bal ++ str " ETH, need " ++
        fmt amt ++ str " + " ++ fmt GAS_RESERVE_ETH ++ str " for gas."
  | SweeperErr.noLiquidity sym =>
      str "No liquidity pool found for " ++ sym ++
        str ". Tried V3 fee tiers (0.05%, 0.3%, 1%) with no success. Token may not have WETH pair on Base or liquidity is insufficient."
  | SweeperErr.txFailed tx => str "Transaction failed: " ++ tx

/-- Observable outcome of `_try_v3_swap`: the returned value, the ledger lines
appended, the transactions submitted, and the fee tiers whose loop body was
entered, each in order. -/
structure V3Out where
  result : Option SwapResult
  appended : List (List Char)
  submitted : List (List Char)
  probed : List Nat
deriving Repr

/-- The fee-tier loop of `_try_v3_swap` (sweeper.py lines 337-421): a gas
estimation failure is caught and the loop continues with no submission; a
submitted transaction whose receipt status is not 1 falls through to the next
tier; a successful receipt computes the balance delta, appends the ledger
line, and returns immediately. -/
def try_v3_go (env : ChainEnv) (amount_eth : ℚ) : List Nat → V3Out
  | [] => ⟨none, [], [], []⟩
  | fee :: rest =>
    match env.tier fee with
    | TierOutcome.estimateFail =>
      let o := try_v3_go env amount_eth rest
      ⟨o.result, o.appended, o.submitted, fee :: o.probed⟩
    | TierOutcome.receiptFail tx =>
      let o := try_v3_go env amount_eth rest
      ⟨o.result, o.appended, tx :: o.submitted, fee :: o.probed⟩
    | TierOutcome.success tx bAfter =>
      let amount_out_human : ℚ := (bAfter - env.balance_before) / 10 ^ env.decimals
      let line := formatLogLine env.now (env.fmt amount_eth) (env.fmt amount_out_human) env.symbol tx
      ⟨some ⟨tx, env.fmt amount_eth ++ str " ETH",
             env.fmt amount_out_human ++ [ ' ' ] ++ env.symbol, str "confirmed"⟩,
       [ line ], [ tx ], [ fee ]⟩

/-- Embeds `_try_v3_swap` (sweeper.py lines 318-421). -/
def try_v3_swap (env : ChainEnv) (amount_eth : ℚ) : V3Out :=
  try_v3_go env amount_eth fee_tiers

/-- Observable outcome of the V4 fallback or of `buy_token`. -/
structure V4Out where
  result : Except SweeperErr SwapResult
  appended : List (List Char)
  submitted : List (List Char)
deriving Repr

/-- Embeds `_buy_token_v4_clawbank` (sweeper.py lines 247-315): single submission;
a receipt status other than 1 raises `Transaction failed` before any ledger
write; success computes the balance delta, appends the ledger line and
returns. -/
def buy_token_v4_clawbank (env : ChainEnv) (amount_eth : ℚ) : V4Out :=
  match env.v4 with
  | V4Outcome.receiptFail tx => ⟨Except.error (SweeperErr.txFailed tx), [], [ tx ]⟩
  | V4Outcome.success tx bAfter =>
    let amount_out_human : ℚ := (bAfter - env.balance_before) / 10 ^ env.decimals
    let line := formatLogLine env.now (env.fmt amount_eth) (env.fmt amount_out_human) env.symbol tx
    ⟨Except.ok ⟨tx, env.fmt amount_eth ++ str " ETH",
                env.fmt amount_out_human ++ [ ' ' ] ++ env.symbol, str "confirmed"⟩,
     [ line ], [ tx ]⟩

/-- Observable outcome of `buy_token`. -/
structure BuyOut where
  result : Except SweeperErr SwapResult
  appended : List (List Char)
  submitted : List (List Char)
  routeB : Bool
deriving Repr

/-- Embeds `buy_token` (sweeper.py lines 424-488).  `target` is the configured target
token (post-checksum; `checksum` only changes letter case, which the
`.lower()` comparison at line 480 erases, so it is not modelled separately),
`balance_eth` the wallet's native balance.  The preconditions are checked in
source order: missing target (line 444), non-positive amount (line 452),
balance minus the 0.001 gas reserve below the requested amount (line 455).
Then Route A is tried; on no result, Route B runs only when the target equals
the ClawBank constant case-insensitively (line 480), otherwise the Liquidity
error is raised (lines 484-488). -/
def buy_token (env : ChainEnv) (target : Option (List Char)) (balance_eth : ℚ) (amount_eth : ℚ) : BuyOut :=
  match target with
  | none => ⟨Except.error SweeperErr.noTarget, [], [], false⟩
  | some tgt =>
    if amount_eth ≤ 0 then ⟨Except.error SweeperErr.nonPositiveAmount, [], [], false⟩
    else if balance_eth - GAS_RESERVE_ETH < amount_eth then
      ⟨Except.error (SweeperErr.insufficientBalance balance_eth amount_eth), [], [], false⟩
    else
      let v3 := try_v3_swap env amount_eth
      match v3.result with
      | some r => ⟨Except.ok r, v3.appended, v3.submitted, false⟩
      | none =>
        if pyLower tgt = pyLower CLAWBANK_ADDRESS then
          let o := buy_token_v4_clawbank env amount_eth
          ⟨o.result, v3.appended ++ o.appended, v3.submitted ++ o.submitted, true⟩
        else
          ⟨Except.error (SweeperErr.noLiquidity env.symbol), v3.appended, v3.submitted, false⟩

/-- Models `amount_out / (10 ** decimals)` followed by Python `str()`
(sweeper.py lines 300-302 with 306/313, and 399-401 with 405/412): the source
divides two Python ints with `/`, an IEEE-754 double division.  Only the case
where the exact quotient is an integer of magnitude below 2^53 is modelled —
there the double is exact and `str` renders the decimal digits followed by
`.0`.  Non-integral or larger quotients are left unmodelled (`none`). -/
def amount_out_human_str (amount_out : Int) (decimals : Nat) : Option (List Char) :=
  if (10 ^ decimals : Int) ∣ amount_out ∧ (amount_out / 10 ^ decimals).natAbs < 2 ^ 53 then
    some ((toString (amount_out / 10 ^ decimals)).data ++ str ".0")
  else none

/-- Reference semantics, stated from the spec's words for comparison with
`_try_v3_swap` (claim C3): the tiers whose loop body runs are the listed tiers
in order up to and including the first success. -/
def specTiersTried (t : Nat → TierOutcome) : List Nat → List Nat
  | [] => []
  | f :: rest =>
    match t f with
    | TierOutcome.success _ _ => [ f ]
    | _ => f :: specTiersTried t rest

/-- Reference semantics from the spec's words (claim C3): submissions skip
estimation failures, include receipt failures, and stop at the first
success. -/
def specTxsSubmitted : List TierOutcome → List (List Char)
  | [] => []
  | TierOutcome.estimateFail :: rest => specTxsSubmitted rest
  | TierOutcome.receiptFail tx :: rest => tx :: specTxsSubmitted rest
  | TierOutcome.success tx _ :: _ => [ tx ]

/-- Reference semantics from the spec's words (claim C3): the transaction hash
of the first tier whose receipt indicates success, if any. -/
def specFirstSuccessTx : List TierOutcome → Option (List Char)
  | [] => none
  | TierOutcome.estimateFail :: rest => specFirstSuccessTx rest
  | TierOutcome.receiptFail _ :: rest => specFirstSuccessTx rest
  | TierOutcome.success tx _ :: _ => some tx

/-- A concrete environment in which every fee tier fails gas estimation;
used to instantiate theorems at concrete inputs. -/
def envAllFail : ChainEnv where
  tier := fun _ => TierOutcome.estimateFail
  v4 := V4Outcome.success (str "0xcafe") 5000000000000000000000
  decimals := 18
  symbol := str "USDC"
  balance_before := 0
  now := str "2026-02-14 12:03:00"
  fmt := fun _ => str "0.1"

/-- A concrete environment in which the first tier reverts on estimation, the
second tier's transaction fails at receipt and the third succeeds. -/
def envMixed : ChainEnv where
  tier := fun fee =>
    if fee = 500 then TierOutcome.estimateFail
    else if fee = 3000 then TierOutcome.receiptFail (str "0xaaa")
    else TierOutcome.success (str "0xbbb") 5000000000000000000000
  v4 := V4Outcome.receiptFail (str "0xbad")
  decimals := 18
  symbol := str "CLAW"
  balance_before := 0
  now := str "2026-02-14 12:03:00"
  fmt := fun _ => str "0.1"

/-- The ledger line of the repository's own parsing fixture, as a concrete
instance of `formatLogLine`. -/
def demoLine : List Char :=
  formatLogLine (str "2026-02-14 12:03:00") (str "0.25") (str "4231.7") (str "CLAW") (str "0xdef123")

theorem char_eq_of_toNat {c d : Char} (h : c.toNat = d.toNat) : c = d := by
  apply Char.ext
  apply UInt32.toNat.inj h

theorem char_toNat_ofNat {n : Nat} (h : n < 55296) : (Char.ofNat n).toNat = n := by
  have hv : Nat.isValidChar n := Or.inl h
  simp [Char.ofNat, hv, Char.ofNatAux, Char.toNat, UInt32.toNat, BitVec.toNat_ofNatLt]

theorem char_le_iff {c d : Char} : c ≤ d ↔ c.toNat ≤ d.toNat := by
  rw [Char.le_def, UInt32.le_def, BitVec.le_def]
  exact Iff.rfl

theorem pyLowerChar_toNat (c : Char) :
    (pyLowerChar c).toNat = if 65 ≤ c.toNat ∧ c.toNat ≤ 90 then c.toNat + 32 else c.toNat := by
  unfold pyLowerChar
  have hA : ('A' ≤ c) ↔ (65 ≤ c.toNat) := char_le_iff
  have hZ : (c ≤ 'Z') ↔ (c.toNat ≤ 90) := char_le_iff
  split
  case isTrue hb =>
    simp only [Bool.and_eq_true, decide_eq_true_eq] at hb
    have h1 : 65 ≤ c.toNat := hA.mp hb.1
    have h2 : c.toNat ≤ 90 := hZ.mp hb.2
    rw [if_pos ⟨h1, h2⟩, char_toNat_ofNat (by omega)]
  case isFalse hb =>
    rw [if_neg]
    intro hcon
    exact hb (by
      simp only [Bool.and_eq_true, decide_eq_true_eq]
      exact ⟨hA.mpr hcon.1, hZ.mpr hcon.2⟩)

theorem pyLowerChar_eq_zero {c : Char} (h : pyLowerChar c = '0') : c = '0' := by
  have ht := congrArg Char.toNat h
  rw [pyLowerChar_toNat] at ht
  have h0 : ('0' : Char).toNat = 48 := rfl
  rw [h0] at ht
  split at ht
  case isTrue hcond => omega
  case isFalse hcond => exact char_eq_of_toNat (by rw [ht]; rfl)

theorem isHexDigit_ranges {c : Char} (h : isHexDigit c = true) :
    (48 ≤ c.toNat ∧ c.toNat ≤ 57) ∨ (97 ≤ c.toNat ∧ c.toNat ≤ 102) ∨
      (65 ≤ c.toNat ∧ c.toNat ≤ 70) := by
  simp only [isHexDigit, Bool.or_eq_true, Bool.and_eq_true, decide_eq_true_eq] at h
  rcases h with (⟨h1, h2⟩ | ⟨h1, h2⟩) | ⟨h1, h2⟩
  · exact Or.inl ⟨char_le_iff.mp h1, char_le_iff.mp h2⟩
  · exact Or.inr (Or.inl ⟨char_le_iff.mp h1, char_le_iff.mp h2⟩)
  · exact Or.inr (Or.inr ⟨char_le_iff.mp h1, char_le_iff.mp h2⟩)

theorem pyLowerChar_ne_x_of_hex {c : Char} (h : isHexDigit c = true) : pyLowerChar c ≠ 'x' := by
  intro hx
  have ht := congrArg Char.toNat hx
  rw [pyLowerChar_toNat] at ht
  have hx120 : ('x' : Char).toNat = 120 := rfl
  rw [hx120] at ht
  have hr := isHexDigit_ranges h
  split at ht <;> omega

theorem hex_not_ws {c : Char} (h : isHexDigit c = true) : pyWhitespace c = false := by
  cases hw : pyWhitespace c
  · rfl
  · exfalso
    unfold pyWhitespace at hw
    simp only [Bool.or_eq_true, beq_iff_eq] at hw
    rcases hw with ((((h1 | h1) | h1) | h1) | h1) | h1 <;> subst h1 <;> exact absurd h (by decide)

theorem digit_not_ws {c : Char} (h : isDigit c = true) : pyWhitespace c = false := by
  cases hw : pyWhitespace c
  · rfl
  · exfalso
    unfold pyWhitespace at hw
    simp only [Bool.or_eq_true, beq_iff_eq] at hw
    rcases hw with ((((h1 | h1) | h1) | h1) | h1) | h1 <;> subst h1 <;> exact absurd h (by decide)

theorem dropWhile_eq_self_of_head {p : Char → Bool} {l : List Char}
    (h : ∀ c, l.head? = some c → p c = false) : l.dropWhile p = l := by
  cases l with
  | nil => rfl
  | cons a t =>
    rw [List.dropWhile_cons, h a rfl]
    simp

theorem pyStrip_eq_self_of_ends {l : List Char}
    (h1 : ∀ c, l.head? = some c → pyWhitespace c = false)
    (h2 : ∀ c, l.getLast? = some c → pyWhitespace c = false) : pyStrip l = l := by
  unfold pyStrip
  rw [dropWhile_eq_self_of_head h1]
  rw [dropWhile_eq_self_of_head, List.reverse_reverse]
  intro c hc
  apply h2
  rwa [List.head?_reverse] at hc

theorem pyStrip_eq_self {l : List Char} (h : ∀ c ∈ l, pyWhitespace c = false) :
    pyStrip l = l := by
  apply pyStrip_eq_self_of_ends
  · intro c hc
    exact h c (List.mem_of_mem_head? hc)
  · intro c hc
    exact h c (List.mem_of_getLast?_eq_some hc)

theorem pyLower_eq_replicate_zero {l : List Char} {n : Nat}
    (h : pyLower l = List.replicate n '0') : l = List.replicate n '0' := by
  rw [List.eq_replicate_iff]
  have hlen : l.length = n := by
    have hl := congrArg List.length h
    simpa [pyLower] using hl
  refine ⟨hlen, ?_⟩
  intro b hb
  have hmem : pyLowerChar b ∈ List.replicate n '0' := by
    rw [← h]
    exact List.mem_map_of_mem _ hb
  exact pyLowerChar_eq_zero (List.eq_of_mem_replicate hmem)

theorem remove0x_cons_cons (l : List Char) : remove0x ('0' :: 'x' :: l) = remove0x l := by
  simp [remove0x]

theorem remove0x_eq_self {l : List Char} (h : 'x' ∉ l) : remove0x l = l := by
  induction l using remove0x.induct with
  | case1 => rfl
  | case2 c => rfl
  | case3 c1 c2 rest hc ih =>
    exact absurd (by simp [hc.2]) h
  | case4 c1 c2 rest hc ih =>
    rw [remove0x, if_neg hc]
    rw [ih (fun hm => h (List.mem_cons_of_mem _ hm))]

theorem pyZfill_eq_self {l : List Char} (h : 40 ≤ l.length) : pyZfill 40 l = l := by
  unfold pyZfill
  rw [if_pos h]

theorem pyZfill_zeros {k : Nat} (hk : k ≤ 40) :
    pyZfill 40 (List.replicate k '0') = List.replicate 40 '0' := by
  rcases Nat.lt_or_ge k 40 with hlt | hge
  · cases k with
    | zero => simp [pyZfill]
    | succ j =>
      rw [List.replicate_succ]
      simp only [pyZfill, List.length_cons, List.length_replicate]
      rw [if_neg (by omega)]
      rw [if_neg (by decide)]
      rw [← List.replicate_succ, ← List.replicate_add]
      congr 1
      omega
  · have hk40 : k = 40 := le_antisymm hk hge
    subst hk40
    simp [pyZfill]

/-- C8: `isNativeCurrency` (source `_is_native_eth`) returns true for "eth",
"ETH", "native" (case-insensitively via lowering) and for the all-zero
40-hex-digit address, and returns false for every valid non-zero token
address (an address matching `0x` + 40 hex digits whose digits are not all
zero). -/
theorem c8_is_native_eth :
    (is_native_eth (str "eth") = true ∧ is_native_eth (str "ETH") = true ∧
     is_native_eth (str "native") = true ∧
     is_native_eth (str "0x0000000000000000000000000000000000000000") = true) ∧
    ∀ addr : List Char, validate_address addr = true →
      addr ≠ '0' :: 'x' :: List.replicate 40 '0' →
      is_native_eth addr = false := by
  constructor
  · exact ⟨by decide, by decide, by decide, by decide⟩
  intro addr hval hnz
  cases addr with
  | nil => simp [validate_address] at hval
  | cons c1 t =>
    cases t with
    | nil => simp [validate_address] at hval
    | cons c2 rest =>
      simp only [validate_address, Bool.and_eq_true, beq_iff_eq, List.all_eq_true] at hval
      obtain ⟨⟨⟨h0, hx⟩, hlen⟩, hhex⟩ := hval
      subst h0
      subst hx
      have hnws : ∀ c ∈ '0' :: 'x' :: rest, pyWhitespace c = false := by
        intro c hc
        rcases List.mem_cons.mp hc with rfl | hc
        · decide
        rcases List.mem_cons.mp hc with rfl | hc
        · decide
        exact hex_not_ws (hhex c hc)
      have hstrip := pyStrip_eq_self hnws
      have e0 : pyLowerChar '0' = '0' := by decide
      have ex : pyLowerChar 'x' = 'x' := by decide
      have hlow : pyLower ('0' :: 'x' :: rest) = '0' :: 'x' :: pyLower rest := by
        simp [pyLower, e0, ex]
      have hlenlow : (pyLower rest).length = 40 := by simp [pyLower, hlen]
      have hxnot : 'x' ∉ pyLower rest := by
        intro hm
        rcases List.mem_map.mp hm with ⟨c, hc, hcx⟩
        exact pyLowerChar_ne_x_of_hex (hhex c hc) hcx
      have hne1 : ('0' :: 'x' :: pyLower rest) ≠ str "eth" := by
        intro h
        have hl := congrArg List.length h
        simp [hlenlow, str] at hl
      have hne2 : ('0' :: 'x' :: pyLower rest) ≠ str "native" := by
        intro h
        have hl := congrArg List.length h
        simp [hlenlow, str] at hl
      have hzneq : pyLower rest ≠ List.replicate 40 '0' := by
        intro h
        have hr := pyLower_eq_replicate_zero h
        exact hnz (by rw [hr])
      simp only [is_native_eth]
      rw [if_neg (List.cons_ne_nil _ _)]
      rw [hstrip, hlow]
      rw [if_neg (by
        intro hor
        rcases hor with h | h
        · exact hne1 h
        · exact hne2 h)]
      rw [remove0x_cons_cons, remove0x_eq_self hxnot, pyZfill_eq_self (le_of_eq hlenlow.symm)]
      rw [hlenlow]
      simp only [beq_self_eq_true, Bool.true_and]
      exact beq_eq_false_iff_ne.mpr hzneq

/-- Witness for C8: a concrete valid non-zero address (Base WETH) is not
treated as native currency. -/
theorem c8_is_native_eth_witness :
    is_native_eth (str "0x4200000000000000000000000000000000000006") = false :=
  c8_is_native_eth.2 (str "0x4200000000000000000000000000000000000006") (by decide) (by decide)

/-- C10: every non-empty string that, after stripping, lowercasing and
removing each occurrence of `0x` (a single left-to-right pass, as Python's
`replace` does), leaves at most 40 zero digits is accepted as native
currency: `zfill(40)` pads it back to the all-zero address. -/
theorem c10_short_zero_forms (s : List Char) (hne : s ≠ [])
    (hzero : (remove0x (pyLower (pyStrip s))).all (fun c => c == '0') = true)
    (hlen : (remove0x (pyLower (pyStrip s))).length ≤ 40) :
    is_native_eth s = true := by
  have hrep : remove0x (pyLower (pyStrip s)) =
      List.replicate (remove0x (pyLower (pyStrip s))).length '0' := by
    rw [List.eq_replicate_length]
    intro b hb
    have hb0 := (List.all_eq_true.mp hzero) b hb
    simpa [beq_iff_eq] using hb0
  simp only [is_native_eth]
  rw [if_neg hne]
  by_cases hen : pyLower (pyStrip s) = str "eth" ∨ pyLower (pyStrip s) = str "native"
  · rw [if_pos hen]
  · rw [if_neg hen]
    rw [hrep, pyZfill_zeros hlen]
    simp

/-- Witness for C10 at the concrete input "0x": the bare prefix alone is
accepted as native currency. -/
theorem c10_short_zero_forms_witness : is_native_eth (str "0x") = true :=
  c10_short_zero_forms (str "0x") (by decide) (by decide) (by decide)

/-- C1 counterexample: a ledger line appended by a successful swap is present
in the file, and is no longer present after a later `set_target_token`, which
rewrites the whole config file (sweeper.py lines 127-130 open the file in
`"w"` mode and write only the target and network lines). -/
theorem c1_counterexample :
    demoLine ∈ applyOps [] [ SweepOp.buy_token_append demoLine ] ∧
    demoLine ∉ applyOps []
      [ SweepOp.buy_token_append demoLine,
        SweepOp.set_target_token (str "0x4200000000000000000000000000000000000006") ] := by
  decide

/-- C1 amended: every ledger line is retained by every exposed operation
except `set_target_token`; for every operation sequence containing no
`set_target_token`, all lines of the file (in particular all previously
appended ledger entries) are still present afterwards. -/
theorem c1_amended_retention (file : List (List Char)) (ops : List SweepOp)
    (h : ops.all (fun op => !(isSetTarget op)) = true) :
    ∀ l ∈ file, l ∈ applyOps file ops := by
  induction ops generalizing file with
  | nil =>
    intro l hl
    exact hl
  | cons op rest ih =>
    intro l hl
    simp only [List.all_cons, Bool.and_eq_true] at h
    have hop : applyOp file op = file ∨ ∃ line, applyOp file op = file ++ [ line ] := by
      cases op with
      | set_target_token a => simp [isSetTarget] at h
      | buy_token_append line => exact Or.inr ⟨line, rfl⟩
      | get_sweep_config => exact Or.inl rfl
      | get_token_balance => exact Or.inl rfl
      | send_token => exact Or.inl rfl
    have hstep : l ∈ applyOp file op := by
      rcases hop with he | ⟨line, he⟩
      · rw [he]
        exact hl
      · rw [he]
        exact List.mem_append_left _ hl
    have hrest := ih (applyOp file op) h.2 l hstep
    simpa [applyOps] using hrest

/-- Witness for the amended C1 at a concrete file and operation sequence. -/
theorem c1_amended_retention_witness :
    demoLine ∈ applyOps [ demoLine ]
      [ SweepOp.buy_token_append (str "x"), SweepOp.get_sweep_config ] :=
  c1_amended_retention [ demoLine ]
    [ SweepOp.buy_token_append (str "x"), SweepOp.get_sweep_config ]
    (by decide) demoLine (by decide)

theorem try_v3_go_appended_iff (env : ChainEnv) (amt : ℚ) (fees : List Nat) :
    (try_v3_go env amt fees).appended = [] ↔ (try_v3_go env amt fees).result = none := by
  induction fees with
  | nil => simp [try_v3_go]
  | cons fee rest ih =>
    cases henv : env.tier fee with
    | estimateFail =>
      simp only [try_v3_go, henv]
      exact ih
    | receiptFail tx =>
      simp only [try_v3_go, henv]
      exact ih
    | success tx bAfter =>
      simp [try_v3_go, henv]

theorem try_v3_swap_appended_iff (env : ChainEnv) (amt : ℚ) :
    (try_v3_swap env amt).appended = [] ↔ (try_v3_swap env amt).result = none :=
  try_v3_go_appended_iff env amt fee_tiers

theorem try_v3_go_probed (env : ChainEnv) (amt : ℚ) (fees : List Nat) :
    (try_v3_go env amt fees).probed = specTiersTried env.tier fees := by
  induction fees with
  | nil => simp [try_v3_go, specTiersTried]
  | cons fee rest ih =>
    cases henv : env.tier fee with
    | estimateFail => simp only [try_v3_go, specTiersTried, henv, ih]
    | receiptFail tx => simp only [try_v3_go, specTiersTried, henv, ih]
    | success tx bAfter => simp only [try_v3_go, specTiersTried, henv]

theorem try_v3_go_submitted (env : ChainEnv) (amt : ℚ) (fees : List Nat) :
    (try_v3_go env amt fees).submitted = specTxsSubmitted (fees.map env.tier) := by
  induction fees with
  | nil => simp [try_v3_go, specTxsSubmitted]
  | cons fee rest ih =>
    cases henv : env.tier fee with
    | estimateFail => simp only [try_v3_go, List.map_cons, specTxsSubmitted, henv, ih]
    | receiptFail tx => simp only [try_v3_go, List.map_cons, specTxsSubmitted, henv, ih]
    | success tx bAfter => simp only [try_v3_go, List.map_cons, specTxsSubmitted, henv]

theorem try_v3_go_result_tx (env : ChainEnv) (amt : ℚ) (fees : List Nat) :
    (try_v3_go env amt fees).result.map SwapResult.tx_hash =
      specFirstSuccessTx (fees.map env.tier) := by
  induction fees with
  | nil => simp [try_v3_go, specFirstSuccessTx]
  | cons fee rest ih =>
    cases henv : env.tier fee with
    | estimateFail => simp only [try_v3_go, List.map_cons, specFirstSuccessTx, henv, ih]
    | receiptFail tx => simp only [try_v3_go, List.map_cons, specFirstSuccessTx, henv, ih]
    | success tx bAfter => simp [try_v3_go, List.map_cons, specFirstSuccessTx, henv]

/-- C3: `_try_v3_swap` walks the fee tiers 500, 3000, 10000 (0.05 percent,
0.3 percent, 1 percent) in exactly that order: the tiers whose loop body runs
are the listed prefix up to and including the first success; the submitted
transactions are those of the tiers that pass gas estimation, stopping at the
first success (so a tier whose estimation fails submits nothing and the loop
advances, a submitted transaction with a failed receipt advances to the next
tier, and after the first success no further tier is attempted — in
particular, if estimation fails on all three tiers nothing is submitted and
no result is returned). -/
theorem c3_fee_tier_order (env : ChainEnv) (amount_eth : ℚ) :
    fee_tiers = [ 500, 3000, 10000 ] ∧
    (try_v3_swap env amount_eth).probed = specTiersTried env.tier [ 500, 3000, 10000 ] ∧
    (try_v3_swap env amount_eth).submitted =
      specTxsSubmitted ([ 500, 3000, 10000 ].map env.tier) ∧
    (try_v3_swap env amount_eth).result.map SwapResult.tx_hash =
      specFirstSuccessTx ([ 500, 3000, 10000 ].map env.tier) :=
  ⟨rfl, try_v3_go_probed env amount_eth fee_tiers,
    try_v3_go_submitted env amount_eth fee_tiers,
    try_v3_go_result_tx env amount_eth fee_tiers⟩

/-- C2: `buy_token` is atomic with respect to the ledger: a ledger line is
appended iff the call returns a successful result, and on every raised error
— including a Route B submission whose receipt status is non-success, which
raises `Transaction failed` — nothing has been appended. -/
theorem c2_atomic_ledger (env : ChainEnv) (target : Option (List Char))
    (balance_eth amount_eth : ℚ) :
    ((∃ r, (buy_token env target balance_eth amount_eth).result = Except.ok r) ↔
      (buy_token env target balance_eth amount_eth).appended ≠ []) ∧
    ∀ e, (buy_token env target balance_eth amount_eth).result = Except.error e →
      (buy_token env target balance_eth amount_eth).appended = [] := by
  cases target with
  | none => simp [buy_token]
  | some tgt =>
    by_cases h1 : amount_eth ≤ 0
    · simp [buy_token, h1]
    by_cases h2 : balance_eth - GAS_RESERVE_ETH < amount_eth
    · simp [buy_token, h1, h2]
    cases hres : (try_v3_swap env amount_eth).result with
    | some r =>
      have happ : (try_v3_swap env amount_eth).appended ≠ [] := by
        intro h0
        rw [(try_v3_swap_appended_iff env amount_eth).mp h0] at hres
        exact Option.noConfusion hres
      simp [buy_token, h1, h2, hres, happ]
    | none =>
      have happ0 : (try_v3_swap env amount_eth).appended = [] :=
        (try_v3_swap_appended_iff env amount_eth).mpr hres
      by_cases hcb : pyLower tgt = pyLower CLAWBANK_ADDRESS
      · cases hv4 : env.v4 with
        | receiptFail tx =>
          simp [buy_token, h1, h2, hres, hcb, happ0, buy_token_v4_clawbank, hv4]
        | success tx bAfter =>
          simp [buy_token, h1, h2, hres, hcb, happ0, buy_token_v4_clawbank, hv4]
      · simp [buy_token, h1, h2, hres, hcb, happ0]

/-- C4: when Route A reports no pool (no fee tier's receipt succeeded), the
V4 fallback runs iff the configured target token equals the hardcoded
ClawBank identity (string equality after lowering, i.e. address identity
irrespective of checksum case); for every other target, `buy_token` fails
with the Liquidity error whose text names the tried fee tiers, and Route B
is never invoked. -/
theorem c4_fallback_gate (env : ChainEnv) (tgt : List Char) (balance_eth amount_eth : ℚ)
    (hamt : 0 < amount_eth) (hbal : amount_eth ≤ balance_eth - GAS_RESERVE_ETH)
    (hnopool : specFirstSuccessTx ([ 500, 3000, 10000 ].map env.tier) = none) :
    ((buy_token env (some tgt) balance_eth amount_eth).routeB = true ↔
      pyLower tgt = pyLower CLAWBANK_ADDRESS) ∧
    (pyLower tgt ≠ pyLower CLAWBANK_ADDRESS →
      (buy_token env (some tgt) balance_eth amount_eth).result =
        Except.error (SweeperErr.noLiquidity env.symbol) ∧
      (buy_token env (some tgt) balance_eth amount_eth).routeB = false ∧
      errMsg env.fmt (SweeperErr.noLiquidity env.symbol) =
        str "No liquidity pool found for " ++ env.symbol ++
          str ". Tried V3 fee tiers (0.05%, 0.3%, 1%) with no success. Token may not have WETH pair on Base or liquidity is insufficient.") := by
  have h1 : ¬ amount_eth ≤ 0 := not_le.mpr hamt
  have h2 : ¬ (balance_eth - GAS_RESERVE_ETH < amount_eth) := not_lt.mpr hbal
  have hmap : (try_v3_swap env amount_eth).result.map SwapResult.tx_hash = none := by
    rw [try_v3_swap, try_v3_go_result_tx env amount_eth fee_tiers]
    exact hnopool
  have hres : (try_v3_swap env amount_eth).result = none := by
    cases hr : (try_v3_swap env amount_eth).result with
    | none => rfl
    | some r => rw [hr] at hmap; exact Option.noConfusion hmap
  by_cases hcb : pyLower tgt = pyLower CLAWBANK_ADDRESS
  · refine ⟨by simp [buy_token, h1, h2, hres, hcb], fun hne => absurd hcb hne⟩
  · refine ⟨by simp [buy_token, h1, h2, hres, hcb], fun _ => ⟨?_, ?_, rfl⟩⟩
    · simp [buy_token, h1, h2, hres, hcb]
    · simp [buy_token, h1, h2, hres, hcb]

/-- Witness for C4: with all three tiers failing estimation and the Base WETH
address as target (not the ClawBank identity), the call fails with the
Liquidity error. -/
theorem c4_fallback_gate_witness :
    (buy_token envAllFail (some (str "0x4200000000000000000000000000000000000006")) 1 (1 / 2)).result =
      Except.error (SweeperErr.noLiquidity envAllFail.symbol) :=
  (((c4_fallback_gate envAllFail (str "0x4200000000000000000000000000000000000006") 1 (1 / 2)
      (by norm_num) (by norm_num [GAS_RESERVE_ETH]) (by decide)).2 (by decide))).1

/-- C6: `buy_token` checks its preconditions in source order, each failing
fast with a distinct error and with no transaction submitted and no ledger
line appended: (1) a configured target, (2) a strictly positive amount,
(3) wallet balance minus the fixed 0.001 gas reserve at least the requested
amount, the balance error carrying the held balance and the requested amount
and its text naming balance, amount and reserve. -/
theorem c6_preconditions (env : ChainEnv) (target : Option (List Char))
    (balance_eth amount_eth : ℚ) :
    (target = none →
      (buy_token env target balance_eth amount_eth).result = Except.error SweeperErr.noTarget ∧
      (buy_token env target balance_eth amount_eth).submitted = [] ∧
      (buy_token env target balance_eth amount_eth).appended = []) ∧
    (∀ tgt, target = some tgt → amount_eth ≤ 0 →
      (buy_token env target balance_eth amount_eth).result =
        Except.error SweeperErr.nonPositiveAmount ∧
      (buy_token env target balance_eth amount_eth).submitted = [] ∧
      (buy_token env target balance_eth amount_eth).appended = []) ∧
    (∀ tgt, target = some tgt → 0 < amount_eth → balance_eth - GAS_RESERVE_ETH < amount_eth →
      (buy_token env target balance_eth amount_eth).result =
        Except.error (SweeperErr.insufficientBalance balance_eth amount_eth) ∧
      (buy_token env target balance_eth amount_eth).submitted = [] ∧
      (buy_token env target balance_eth amount_eth).appended = [] ∧
      errMsg env.fmt (SweeperErr.insufficientBalance balance_eth amount_eth) =
        str "Insufficient balance. Have " ++ env.fmt balance_eth ++ str " ETH, need " ++
          env.fmt amount_eth ++ str " + " ++ env.fmt GAS_RESERVE_ETH ++ str " for gas.") ∧
    (SweeperErr.noTarget ≠ SweeperErr.nonPositiveAmount ∧
     SweeperErr.noTarget ≠ SweeperErr.insufficientBalance balance_eth amount_eth ∧
     SweeperErr.nonPositiveAmount ≠ SweeperErr.insufficientBalance balance_eth amount_eth) := by
  refine ⟨?_, ?_, ?_, by simp, by simp, by simp⟩
  · intro h
    subst h
    exact ⟨rfl, rfl, rfl⟩
  · intro tgt h hle
    subst h
    simp [buy_token, hle]
  · intro tgt h hpos hlt
    subst h
    have h1 : ¬ amount_eth ≤ 0 := not_le.mpr hpos
    refine ⟨?_, ?_, ?_, rfl⟩
    · simp [buy_token, h1, hlt]
    · simp [buy_token, h1, hlt]
    · simp [buy_token, h1, hlt]

/-- Witness for C6 at the spec's own numbers: balance 0.0005, reserve 0.001,
requested amount 0.1 raises the Balance error carrying both values, with no
submission. -/
theorem c6_preconditions_witness :
    (buy_token envAllFail (some CLAWBANK_ADDRESS) (1 / 2000) (1 / 10)).result =
      Except.error (SweeperErr.insufficientBalance (1 / 2000) (1 / 10)) ∧
    (buy_token envAllFail (some CLAWBANK_ADDRESS) (1 / 2000) (1 / 10)).submitted = [] := by
  have h := (c6_preconditions envAllFail (some CLAWBANK_ADDRESS) (1 / 2000) (1 / 10)).2.2.1
    CLAWBANK_ADDRESS rfl (by norm_num) (by norm_num [GAS_RESERVE_ETH])
  exact ⟨h.1, h.2.1⟩

/-- C5 counterexample: with balance-before 0 and balance-after 5000·10^18 raw
units at 18 decimals, the amount part of the reported string is "5000.0",
not "5000" — the swap paths render the float with Python's default `str`,
which keeps a trailing ".0" on integral values, and never strip trailing
zeros (stripping exists only in `get_token_balance`, sweeper.py line 237). -/
theorem c5_counterexample :
    amount_out_human_str (5000 * 10 ^ 18 - 0) 18 = some (str "5000.0") ∧
    str "5000.0" ≠ str "5000" := by
  constructor
  · decide
  · decide

/-- C5 amended: for a successful swap with 18 decimals, balance-before 0 and
balance-after 5000·10^18 raw units, the amount part of the reported
`amountOut` string is exactly "5000.0". -/
theorem c5_amended :
    amount_out_human_str (5000 * 10 ^ 18 - 0) 18 = some (str "5000.0") := by
  decide

theorem takeWhile_append_cons {p : Char → Bool} {a : List Char} {x : Char} {b : List Char}
    (ha : ∀ c ∈ a, p c = true) (hx : p x = false) :
    (a ++ x :: b).takeWhile p = a := by
  induction a with
  | nil => simp [List.takeWhile_cons, hx]
  | cons c t ih =>
    rw [List.cons_append, List.takeWhile_cons, ha c (List.mem_cons_self c t)]
    rw [ih (fun d hd => ha d (List.mem_cons_of_mem c hd))]
    simp

theorem head?_append_of_ne_nil {a b : List Char} (h : a ≠ []) : (a ++ b).head? = a.head? := by
  cases a with
  | nil => exact absurd rfl h
  | cons x t => rfl

theorem getLast?_append_of_ne_nil {a b : List Char} (h : b ≠ []) :
    (a ++ b).getLast? = b.getLast? := by
  rw [List.getLast?_append]
  cases hb : b.getLast? with
  | some v => rfl
  | none => exact absurd (List.getLast?_eq_none_iff.mp hb) h

theorem getLast?_cons_of_ne_nil {a : Char} {l : List Char} (h : l ≠ []) :
    (a :: l).getLast? = l.getLast? := by
  have : a :: l = [ a ] ++ l := rfl
  rw [this, getLast?_append_of_ne_nil h]

theorem append_ne_nil_right {a b : List Char} (h : b ≠ []) : a ++ b ≠ [] := by
  simp [h]

theorem pipeGroup_append (g kw tail : List Char)
    (hg : ∀ c ∈ g, c ≠ '|') (hgne : g ≠ []) (hkw : ∃ kwrest, kw = '|' :: kwrest) :
    pipeGroup (g ++ [ ' ' ] ++ kw ++ tail) kw = some (g, tail) := by
  obtain ⟨kwrest, rfl⟩ := hkw
  have hassoc : g ++ [ ' ' ] ++ ('|' :: kwrest) ++ tail =
      (g ++ [ ' ' ]) ++ '|' :: (kwrest ++ tail) := by
    simp [List.append_assoc]
  have hrun : (g ++ [ ' ' ] ++ ('|' :: kwrest) ++ tail).takeWhile (fun c => c != '|') =
      g ++ [ ' ' ] := by
    rw [hassoc]
    apply takeWhile_append_cons
    · intro c hc
      rcases List.mem_append.mp hc with hc | hc
      · simpa [bne_iff_ne] using hg c hc
      · simp at hc
        subst hc
        decide
    · decide
  simp only [pipeGroup, hrun]
  rw [if_pos]
  · have hdrop : (g ++ [ ' ' ] ++ ('|' :: kwrest) ++ tail).drop (g ++ [ ' ' ]).length =
        '|' :: (kwrest ++ tail) := by
      rw [hassoc]
      exact List.drop_left _ _
    rw [hdrop]
    rw [List.dropLast_concat]
    have : ('|' :: (kwrest ++ tail)).drop ('|' :: kwrest).length = tail := by
      have hc : '|' :: (kwrest ++ tail) = ('|' :: kwrest) ++ tail := rfl
      rw [hc]
      exact List.drop_left _ _
    rw [this]
  · refine ⟨List.getLast?_concat _, ?_, ?_⟩
    · rw [List.dropLast_concat]
      exact hgne
    · have hdrop : (g ++ [ ' ' ] ++ ('|' :: kwrest) ++ tail).drop (g ++ [ ' ' ]).length =
          '|' :: (kwrest ++ tail) := by
        rw [hassoc]
        exact List.drop_left _ _
      rw [hdrop]
      rw [List.isPrefixOf_iff_prefix]
      have hc : '|' :: (kwrest ++ tail) = ('|' :: kwrest) ++ tail := rfl
      rw [hc]
      exact List.prefix_append _ _

theorem tsShape_length {ts : List Char} (h : tsShape ts = true) : ts.length = 19 := by
  unfold tsShape at h
  rw [Bool.and_eq_true] at h
  simpa using h.1

theorem tsShape_head_digit {ts : List Char} (h : tsShape ts = true) :
    ∀ c, ts.head? = some c → isDigit c = true := by
  intro c hc
  unfold tsShape at h
  rw [Bool.and_eq_true, List.all_eq_true] at h
  have h0 := h.2 0 (by simp)
  simp at h0
  cases ts with
  | nil => simp at hc
  | cons a t =>
    simp at hc
    subst hc
    simpa using h0

theorem digit_ne_hash {c : Char} (h : isDigit c = true) : c ≠ '#' := by
  intro hc
  subst hc
  exact absurd h (by decide)

/-- C7: round trip between append and read.  A ledger line written by a
successful swap — timestamp matching the strftime shape, pipe-free
non-empty whitespace-free amount renderings and symbol, and a transaction
hash of the `0x` + hex form required by the grammar (what `HexBytes.hex()`
produces) — matches the fixed log-line grammar, and parsing it back yields
exactly the written timestamp, spent, bought and transaction-hash fields;
consequently `get_sweep_config`'s line loop turns the appended line into
exactly that entry. -/
theorem c7_roundtrip (ts spent bought sym txbody : List Char)
    (hts : tsShape ts = true)
    (hsp_pipe : ∀ c ∈ spent, c ≠ '|') (hsp_ne : spent ≠ [])
    (hsp_ws : ∀ c ∈ spent, pyWhitespace c = false)
    (hb_pipe : ∀ c ∈ bought, c ≠ '|') (hb_ne : bought ≠ [])
    (hb_ws : ∀ c ∈ bought, pyWhitespace c = false)
    (hsym_pipe : ∀ c ∈ sym, c ≠ '|') (hsym_ne : sym ≠ [])
    (hsym_ws : ∀ c ∈ sym, pyWhitespace c = false)
    (htx_ne : txbody ≠ []) (htx_hex : ∀ c ∈ txbody, isHexDigit c = true) :
    parseLedgerLine (formatLogLine ts spent bought sym ('0' :: 'x' :: txbody)) =
      some ⟨ts, spent ++ str " ETH", bought ++ [ ' ' ] ++ sym, '0' :: 'x' :: txbody⟩ ∧
    ∀ st : SweepState,
      processLine st (formatLogLine ts spent bought sym ('0' :: 'x' :: txbody)) =
        { st with recent_sweeps := st.recent_sweeps ++
            [ ⟨ts, spent ++ str " ETH", bought ++ [ ' ' ] ++ sym, '0' :: 'x' :: txbody⟩ ] } := by
  have hlen19 : ts.length = 19 := tsShape_length hts
  have hT_ne : ('0' :: 'x' :: txbody : List Char) ≠ [] := List.cons_ne_nil _ _
  have hts_ne : ts ≠ [] := by
    intro h0
    rw [h0] at hlen19
    simp at hlen19
  have h_take : (formatLogLine ts spent bought sym ('0' :: 'x' :: txbody)).take 19 = ts := by
    unfold formatLogLine
    simp only [List.append_assoc]
    exact List.take_left' hlen19
  have h_drop : (formatLogLine ts spent bought sym ('0' :: 'x' :: txbody)).drop 19 =
      str " | spent: " ++ (spent ++ (str " ETH | bought: " ++
        (bought ++ ([ ' ' ] ++ (sym ++ (str " | tx: " ++ ('0' :: 'x' :: txbody))))))) := by
    unfold formatLogLine
    simp only [List.append_assoc]
    exact List.drop_left' hlen19
  have h_drop10 : (str " | spent: " ++ (spent ++ (str " ETH | bought: " ++
        (bought ++ ([ ' ' ] ++ (sym ++ (str " | tx: " ++ ('0' :: 'x' :: txbody)))))))).drop 10 =
      spent ++ (str " ETH | bought: " ++
        (bought ++ ([ ' ' ] ++ (sym ++ (str " | tx: " ++ ('0' :: 'x' :: txbody)))))) :=
    List.drop_left' rfl
  have hpg1 : pipeGroup (spent ++ (str " ETH | bought: " ++
        (bought ++ ([ ' ' ] ++ (sym ++ (str " | tx: " ++ ('0' :: 'x' :: txbody)))))))
      (str "| bought: ") =
      some (spent ++ str " ETH",
            bought ++ ([ ' ' ] ++ (sym ++ (str " | tx: " ++ ('0' :: 'x' :: txbody))))) := by
    have e1 : spent ++ (str " ETH | bought: " ++
        (bought ++ ([ ' ' ] ++ (sym ++ (str " | tx: " ++ ('0' :: 'x' :: txbody)))))) =
        (spent ++ str " ETH") ++ [ ' ' ] ++ str "| bought: " ++
          (bought ++ ([ ' ' ] ++ (sym ++ (str " | tx: " ++ ('0' :: 'x' :: txbody))))) := by
      have es : str " ETH | bought: " = str " ETH" ++ ([ ' ' ] ++ str "| bought: ") := rfl
      rw [es]
      simp only [List.append_assoc]
    rw [e1]
    apply pipeGroup_append
    · intro c hc
      rcases List.mem_append.mp hc with hc | hc
      · exact hsp_pipe c hc
      · simp [str] at hc
        rcases hc with rfl | rfl | rfl | rfl <;> decide
    · exact append_ne_nil_right (by decide)
    · exact ⟨str " bought: ", rfl⟩
  have hpg2 : pipeGroup (bought ++ ([ ' ' ] ++ (sym ++ (str " | tx: " ++ ('0' :: 'x' :: txbody)))))
      (str "| tx: ") =
      some (bought ++ [ ' ' ] ++ sym, '0' :: 'x' :: txbody) := by
    have e2 : bought ++ ([ ' ' ] ++ (sym ++ (str " | tx: " ++ ('0' :: 'x' :: txbody)))) =
        (bought ++ [ ' ' ] ++ sym) ++ [ ' ' ] ++ str "| tx: " ++ ('0' :: 'x' :: txbody) := by
      have es : str " | tx: " = [ ' ' ] ++ str "| tx: " := rfl
      rw [es]
      simp only [List.append_assoc]
    rw [e2]
    apply pipeGroup_append
    · intro c hc
      rcases List.mem_append.mp hc with hc | hc
      · rcases List.mem_append.mp hc with hc | hc
        · exact hb_pipe c hc
        · simp at hc
          subst hc
          decide
      · exact hsym_pipe c hc
    · intro he
      exact absurd (List.append_eq_nil.mp (List.append_eq_nil.mp he).1).2 (by decide)
    · exact ⟨str " tx: ", rfl⟩
  have hprefix0x : (str "0x").isPrefixOf ('0' :: 'x' :: txbody) = true := by
    rw [List.isPrefixOf_iff_prefix]
    exact ⟨txbody, rfl⟩
  have htake_hex : (('0' :: 'x' :: txbody).drop 2).takeWhile isHexDigit = txbody := by
    show txbody.takeWhile isHexDigit = txbody
    rw [List.takeWhile_eq_self_iff]
    intro x hx
    exact htx_hex x hx
  have hstrip2 : pyStrip (spent ++ str " ETH") = spent ++ str " ETH" := by
    apply pyStrip_eq_self_of_ends
    · intro c hc
      rw [head?_append_of_ne_nil hsp_ne] at hc
      exact hsp_ws c (List.mem_of_mem_head? hc)
    · intro c hc
      rw [getLast?_append_of_ne_nil (by decide : str " ETH" ≠ ([] : List Char))] at hc
      have hH : (str " ETH").getLast? = some 'H' := rfl
      rw [hH] at hc
      have hcH : c = 'H' := (Option.some.inj hc).symm
      subst hcH
      decide
  have hstrip3 : pyStrip (bought ++ [ ' ' ] ++ sym) = bought ++ [ ' ' ] ++ sym := by
    apply pyStrip_eq_self_of_ends
    · intro c hc
      rw [head?_append_of_ne_nil (append_ne_nil_right (by decide) :
            bought ++ [ ' ' ] ≠ ([] : List Char))] at hc
      rw [head?_append_of_ne_nil hb_ne] at hc
      exact hb_ws c (List.mem_of_mem_head? hc)
    · intro c hc
      rw [getLast?_append_of_ne_nil hsym_ne] at hc
      exact hsym_ws c (List.mem_of_getLast?_eq_some hc)
  have hpre : (str " | spent: ").isPrefixOf (str " | spent: " ++ (spent ++ (str " ETH | bought: " ++
        (bought ++ ([ ' ' ] ++ (sym ++ (str " | tx: " ++ ('0' :: 'x' :: txbody)))))))) = true := by
    rw [List.isPrefixOf_iff_prefix]
    exact List.prefix_append _ _
  have hparse : parseLedgerLine (formatLogLine ts spent bought sym ('0' :: 'x' :: txbody)) =
      some ⟨ts, spent ++ str " ETH", bought ++ [ ' ' ] ++ sym, '0' :: 'x' :: txbody⟩ := by
    unfold parseLedgerLine
    rw [h_take, h_drop]
    rw [if_pos hts, if_pos hpre]
    rw [h_drop10]
    rw [hpg1]
    simp only [hpg2, hprefix0x, htake_hex, hstrip2, hstrip3]
    simp [htx_ne]
  refine ⟨hparse, ?_⟩
  have hLright : formatLogLine ts spent bought sym ('0' :: 'x' :: txbody) =
      ts ++ (str " | spent: " ++ (spent ++ (str " ETH | bought: " ++
        (bought ++ ([ ' ' ] ++ (sym ++ (str " | tx: " ++ ('0' :: 'x' :: txbody)))))))) := by
    unfold formatLogLine
    simp only [List.append_assoc]
  have hstripL : pyStrip (formatLogLine ts spent bought sym ('0' :: 'x' :: txbody)) =
      formatLogLine ts spent bought sym ('0' :: 'x' :: txbody) := by
    apply pyStrip_eq_self_of_ends
    · intro c hc
      rw [hLright, head?_append_of_ne_nil hts_ne] at hc
      exact digit_not_ws (tsShape_head_digit hts c hc)
    · intro c hc
      unfold formatLogLine at hc
      rw [getLast?_append_of_ne_nil hT_ne] at hc
      rw [getLast?_cons_of_ne_nil (List.cons_ne_nil _ _)] at hc
      rw [getLast?_cons_of_ne_nil htx_ne] at hc
      exact hex_not_ws (htx_hex c (List.mem_of_getLast?_eq_some hc))
  have hLne : formatLogLine ts spent bought sym ('0' :: 'x' :: txbody) ≠ [] := by
    rw [hLright]
    exact append_ne_nil_right (append_ne_nil_right (by
      intro h0
      exact absurd (List.append_eq_nil.mp h0).1 hsp_ne))
  have hhash : ¬ ((formatLogLine ts spent bought sym ('0' :: 'x' :: txbody)).head? = some '#') := by
    intro hc
    rw [hLright, head?_append_of_ne_nil hts_ne] at hc
    exact digit_ne_hash (tsShape_head_digit hts '#' hc) rfl
  intro st
  unfold processLine
  rw [hstripL]
  rw [if_neg hLne, if_neg hhash, hparse]

/-- Witness for C7 at the repository's own fixture line. -/
theorem c7_roundtrip_witness :
    parseLedgerLine demoLine =
      some ⟨ str "2026-02-14 12:03:00", str "0.25 ETH", str "4231.7 CLAW", str "0xdef123" ⟩ := by
  have h := (c7_roundtrip (str "2026-02-14 12:03:00") (str "0.25") (str "4231.7") (str "CLAW")
    (str "def123")
    (by decide) (by decide) (by decide) (by decide) (by decide) (by decide) (by decide)
    (by decide) (by decide) (by decide) (by decide) (by decide)).1
  exact h

theorem processLine_sweeps (st : SweepState) (line : List Char) :
    (processLine st line).recent_sweeps = st.recent_sweeps ++ (lineEntry line).toList := by
  unfold processLine lineEntry
  by_cases h1 : pyStrip line = []
  · simp [h1]
  by_cases h2 : (pyStrip line).head? = some '#'
  · simp [h1, h2]
  cases hp : parseLedgerLine (pyStrip line) with
  | some e => simp [h1, h2, hp]
  | none =>
    by_cases h3 : '=' ∈ pyStrip line
    · simp only [h1, h2, hp, h3, if_neg, if_true, if_false]
      split
      · split
        · simp
        · split
          · simp
          · simp
      · simp
    · simp [h1, h2, hp, h3]

theorem foldl_processLine_sweeps (lines : List (List Char)) (st : SweepState) :
    (lines.foldl processLine st).recent_sweeps =
      st.recent_sweeps ++ lines.filterMap lineEntry := by
  induction lines generalizing st with
  | nil => simp
  | cons l rest ih =>
    rw [List.foldl_cons, ih (processLine st l), processLine_sweeps]
    cases hl : lineEntry l with
    | none => simp [List.filterMap_cons, hl]
    | some e => simp [List.filterMap_cons, hl]

theorem processLine_skip (st : SweepState) (junk : List Char)
    (h1 : lineEntry junk = none) (h2 : (pyStrip junk).contains '=' = false) :
    processLine st junk = st := by
  have h2m : '=' ∉ pyStrip junk := by simpa using h2
  unfold processLine
  unfold lineEntry at h1
  by_cases ha : pyStrip junk = []
  · simp [ha]
  by_cases hb : (pyStrip junk).head? = some '#'
  · simp [ha, hb]
  rw [if_neg ha, if_neg hb]
  rw [if_neg ha, if_neg hb] at h1
  rw [h1]
  simp [h2m]

/-- C9: `get_sweep_config` surfaces exactly the trailing ten parseable ledger
entries in file order (Python `[-10:]`), and a line matching neither the
ledger grammar nor the `key=value` form is silently skipped: removing it from
the file leaves the whole parsed configuration unchanged. -/
theorem c9_last_ten (lines : List (List Char))
    (h : 10 < (lines.filterMap lineEntry).length) :
    (get_sweep_config lines).recent_sweeps =
      (lines.filterMap lineEntry).drop ((lines.filterMap lineEntry).length - 10) ∧
    (get_sweep_config lines).recent_sweeps.length = 10 ∧
    ∀ junk pre post, lineEntry junk = none → (pyStrip junk).contains '=' = false →
      lines = pre ++ junk :: post →
      get_sweep_config lines = get_sweep_config (pre ++ post) := by
  have hfold : (get_sweep_config lines).recent_sweeps =
      pyTail10 (lines.filterMap lineEntry) := by
    simp only [get_sweep_config]
    rw [foldl_processLine_sweeps]
    rfl
  refine ⟨?_, ?_, ?_⟩
  · rw [hfold]
    rfl
  · rw [hfold]
    unfold pyTail10
    rw [List.length_drop]
    omega
  · intro junk pre post hj1 hj2 hsplit
    subst hsplit
    simp only [get_sweep_config]
    rw [List.foldl_append, List.foldl_append, List.foldl_cons, processLine_skip _ _ hj1 hj2]

/-- Witness for C9: a file with a config header, a junk line and eleven
ledger lines surfaces exactly ten entries. -/
theorem c9_last_ten_witness :
    (get_sweep_config ([ str "target=0xabc", str "junk line" ] ++
       List.replicate 11 demoLine)).recent_sweeps.length = 10 :=
  (c9_last_ten ([ str "target=0xabc", str "junk line" ] ++ List.replicate 11 demoLine)
    (by decide)).2.1

/-- Witness for C2 at a concrete environment and failing call: the Liquidity
error leaves the ledger untouched. -/
theorem c2_atomic_ledger_witness :
    (buy_token envAllFail (some (str "0xabc")) 1 (1 / 10)).appended = [] := by
  have h1 : ¬ (1 / 10 : ℚ) ≤ 0 := by norm_num
  have h2 : ¬ ((1 : ℚ) - GAS_RESERVE_ETH < 1 / 10) := by norm_num [GAS_RESERVE_ETH]
  have hres : (try_v3_swap envAllFail (1 / 10)).result = none := by
    simp [try_v3_swap, try_v3_go, fee_tiers, envAllFail]
  have hcb : pyLower (str "0xabc") ≠ pyLower CLAWBANK_ADDRESS := by decide
  exact (c2_atomic_ledger envAllFail (some (str "0xabc")) 1 (1 / 10)).2
    (SweeperErr.noLiquidity envAllFail.symbol)
    (by
      simp only [buy_token]
      rw [if_neg h1, if_neg h2]
      simp only [hres]
      rw [if_neg hcb])
